import Mathlib

/-!
Verification of the Mewbile-Tech contract billing core (`src/contract.py`)
against its natural-language specification.

Conventions of the embedding:
* currency amounts are exact rationals (the decimal literals of the source
  are read exactly: `0.05 = 5/100`, `0.1 = 1/10`, `0.025 = 25/1000`);
* a call duration is a natural number of seconds and the source's
  `ceil(call.duration / 60.0)` is embedded as exact ceiling division by 60;
* `self.bill` / `self.start` may be `None` in Python, embedded as `Option`;
  an operation that dereferences a possibly-absent value returns `Option`
  and yields `none` exactly when Python would raise an attribute error;
* `bill.py` is not among the provided sources, so the `Bill` accumulator is
  modelled from the specification (each such definition says so).
-/

/-- Calendar date embedding `datetime.date` (compared lexicographically by
year, month, day, as Python compares dates). -/
structure Date where
  year : Int
  month : Int
  day : Int
deriving DecidableEq

/-- Lexicographic order on dates, the embedding of `<=` on `datetime.date`. -/
def dateLe (a b : Date) : Bool :=
  decide (a.year < b.year ∨ (a.year = b.year ∧
    (a.month < b.month ∨ (a.month = b.month ∧ a.day ≤ b.day))))

/-- Modelled from the spec: `bill.py` is missing from the sources.  A `Bill`
is the per-month accumulator of section 4.1: a plan tag, a fixed-cost total,
a per-minute rate, a free-minutes-used counter and a billed-minutes counter.
`free_min` is the single free-minutes-used counter of the data model
(section 3); it is the raw field that `TermContract` also reads and mutates
directly (section 9). -/
structure Bill where
  type : String
  fixed_cost : ℚ
  min_rate : ℚ
  free_min : Int
  billed_min : Int
deriving DecidableEq

namespace Bill

/-- Modelled from the spec: a freshly created bill, every accumulator zero
(section 3: created fresh by the monthly driver). -/
def empty : Bill :=
  { type := "", fixed_cost := 0, min_rate := 0, free_min := 0, billed_min := 0 }

/-- Modelled from the spec: `add_fixed_cost(amount)` adds `amount` to the
fixed-cost total (section 4.1). -/
def add_fixed_cost (b : Bill) (amount : ℚ) : Bill :=
  { b with fixed_cost := b.fixed_cost + amount }

/-- Modelled from the spec: `set_rates(planTag, perMinuteRate)` records the
plan tag and the per-minute rate, last write wins (section 4.1). -/
def set_rates (b : Bill) (tag : String) (rate : ℚ) : Bill :=
  { b with type := tag, min_rate := rate }

/-- Modelled from the spec: `add_free_minutes(n)` increments the
free-minutes-used counter by `n` (section 4.1). -/
def add_free_minutes (b : Bill) (n : Int) : Bill :=
  { b with free_min := b.free_min + n }

/-- Modelled from the spec: `add_billed_minutes(n)` increments the
billed-minutes counter by `n` (section 4.1). -/
def add_billed_minutes (b : Bill) (n : Int) : Bill :=
  { b with billed_min := b.billed_min + n }

/-- Modelled from the spec: `get_cost()` returns the fixed-cost total plus
billed minutes times the per-minute rate (section 4.1). -/
def get_cost (b : Bill) : ℚ :=
  b.fixed_cost + (b.billed_min : ℚ) * b.min_rate

end Bill

/-! Constants of `src/contract.py`. -/

def MTM_MONTHLY_FEE : ℚ := 50
def TERM_MONTHLY_FEE : ℚ := 20
def TERM_DEPOSIT : ℚ := 300
def TERM_MINS : Int := 100
def MTM_MINS_COST : ℚ := 5 / 100
def TERM_MINS_COST : ℚ := 1 / 10
def PREPAID_MINS_COST : ℚ := 25 / 1000

/-- The source's `ceil(call.duration / 60.0)`, read as exact ceiling division
of the duration in seconds by 60. -/
def callMinutes (duration : Nat) : Nat := (duration + 59) / 60

/-- Total minutes of a list of call durations, each call rounded up
separately. -/
def minutesSum (ds : List Nat) : Nat := (ds.map callMinutes).sum

/-! `MTMContract` (month-to-month), which inherits `bill_call` and
`cancel_contract` unchanged from the abstract `Contract`. -/

/-- A month-to-month contract: the base `Contract` state (start date, and the
active bill once `new_month` has installed one). -/
structure MTMContract where
  start : Option Date
  bill : Option Bill
deriving DecidableEq

/-- `Contract.__init__` as run for `MTMContract`: the given start date, no
bill yet. -/
def mtmInit (start : Date) : MTMContract :=
  { start := some start, bill := none }

/-- `MTMContract.new_month`: installs the bill, sets the MTM rate and adds
the flat monthly fee (the month and year arguments are unused by this
variant). -/
def mtmNewMonth (st : MTMContract) (_month _year : Int) (bill : Bill) : MTMContract :=
  { st with bill := some ((bill.set_rates "MTM" MTM_MINS_COST).add_fixed_cost MTM_MONTHLY_FEE) }

/-- Inherited `Contract.bill_call`: adds the call's minutes to the billed
minutes of the active bill; with no bill installed the dereference of
`self.bill` raises (`none`). -/
def mtmBillCall (st : MTMContract) (duration : Nat) : Option MTMContract :=
  match st.bill with
  | none => none
  | some b => some { st with bill := some (b.add_billed_minutes (callMinutes duration)) }

/-- Inherited `Contract.cancel_contract`: clears the start date and returns
the active bill's cost; with no bill installed the dereference raises
(`none`). -/
def mtmCancel (st : MTMContract) : Option (ℚ × MTMContract) :=
  match st.bill with
  | none => none
  | some b => some (b.get_cost, { st with start := none })

/-- A sequence of `bill_call` invocations on a month-to-month contract, in
order; any failure aborts the sequence. -/
def mtmBillCalls : MTMContract → List Nat → Option MTMContract
  | st, [] => some st
  | st, d :: ds =>
    match mtmBillCall st d with
    | none => none
    | some st2 => mtmBillCalls st2 ds

/-! `TermContract`. -/

/-- A term contract: the base state plus the current-period marker and the
contract end date (named `end` in the source; `end` is a Lean keyword). -/
structure TermContract where
  start : Option Date
  bill : Option Bill
  current : Date
  endDate : Date
deriving DecidableEq

/-- `TermContract.__init__`: base initialisation plus the end date, with the
current-period marker starting at the start date. -/
def termInit (start endDate : Date) : TermContract :=
  { start := some start, bill := none, current := start, endDate := endDate }

/-- `TermContract.new_month`: installs the bill, zeroes its free-minutes
counter, charges the deposit iff the month and year equal the start date's,
sets the term rate, adds the monthly fee, and records the first of the month
as the current period.  Dereferencing a cleared start date, or passing
`datetime.date` an out-of-range month or year, raises (`none`). -/
def termNewMonth (st : TermContract) (month year : Int) (bill : Bill) : Option TermContract :=
  match st.start with
  | none => none
  | some s =>
    if 1 ≤ month ∧ month ≤ 12 ∧ 1 ≤ year ∧ year ≤ 9999 then
      let b1 := { bill with free_min := 0 }
      let b2 := if s.month = month ∧ s.year = year then b1.add_fixed_cost TERM_DEPOSIT else b1
      let b3 := (b2.set_rates "TERM" TERM_MINS_COST).add_fixed_cost TERM_MONTHLY_FEE
      some { st with bill := some b3, current := { year := year, month := month, day := 1 } }
    else
      none

/-- The bill transformation performed by `TermContract.bill_call` (the source
mutates `self.bill` in place): with `call_time` the call's minutes and
`excess = call_time - (TERM_MINS - free_min)`, either the pool absorbs the
whole call, or the pool remainder is consumed, the (already updated) counter
is added to itself by `add_free_minutes`, and the excess is billed, or, with
the pool exactly exhausted, the excess alone is billed. -/
def termBillCallB (b : Bill) (duration : Nat) : Bill :=
  let call_time : Int := callMinutes duration
  let excess : Int := call_time - (TERM_MINS - b.free_min)
  if b.free_min + call_time < TERM_MINS then
    { b with free_min := b.free_min + call_time }
  else if b.free_min - TERM_MINS ≠ 0 then
    let b1 := { b with free_min := b.free_min + (call_time - excess) }
    (b1.add_free_minutes b1.free_min).add_billed_minutes excess
  else
    b.add_billed_minutes excess

/-- `TermContract.bill_call`: applies `termBillCallB` to the active bill;
with no bill installed the dereference raises (`none`). -/
def termBillCall (st : TermContract) (duration : Nat) : Option TermContract :=
  match st.bill with
  | none => none
  | some b => some { st with bill := some (termBillCallB b duration) }

/-- A sequence of `bill_call` invocations on a term contract, in order. -/
def termBillCalls : TermContract → List Nat → Option TermContract
  | st, [] => some st
  | st, d :: ds =>
    match termBillCall st d with
    | none => none
    | some st2 => termBillCalls st2 ds

/-- `TermContract.cancel_contract`: returns 0 if the end date is on or before
the current-period marker and the deposit net of one monthly fee otherwise.
The method reads only `self.end` and `self.current` and assigns nothing, so
the state (start date and bill included) is returned unchanged. -/
def termCancel (st : TermContract) : ℚ × TermContract :=
  (if dateLe st.endDate st.current then 0 else TERM_DEPOSIT - TERM_MONTHLY_FEE, st)

/-! `PrepaidContract`. -/

/-- A prepaid contract: the base state plus the signed running balance
(negative means credit). -/
structure PrepaidContract where
  start : Option Date
  bill : Option Bill
  balance : ℚ
deriving DecidableEq

/-- `PrepaidContract.__init__`: stores the negation of the top-up argument as
the balance. -/
def prepaidInit (start : Date) (balance : ℚ) : PrepaidContract :=
  { start := some start, bill := none, balance := -balance }

/-- `PrepaidContract.new_month`: installs the bill, charges the carried
balance as a fixed cost, and iff the balance exceeds -10 decreases it by 25
and charges 25 as a further fixed cost; finally sets the prepaid rate (the
month and year arguments are unused by this variant). -/
def prepaidNewMonth (st : PrepaidContract) (_month _year : Int) (bill : Bill) : PrepaidContract :=
  let b1 := bill.add_fixed_cost st.balance
  if st.balance > -10 then
    { st with balance := st.balance - 25,
              bill := some ((b1.add_fixed_cost 25).set_rates "PREPAID" PREPAID_MINS_COST) }
  else
    { st with bill := some (b1.set_rates "PREPAID" PREPAID_MINS_COST) }

/-- `PrepaidContract.bill_call`: adds the call's minutes times the prepaid
rate to the balance and the minutes to the bill's billed minutes; with no
bill installed the dereference raises (`none`). -/
def prepaidBillCall (st : PrepaidContract) (duration : Nat) : Option PrepaidContract :=
  match st.bill with
  | none => none
  | some b =>
    some { st with balance := st.balance + (callMinutes duration : ℚ) * PREPAID_MINS_COST,
                   bill := some (b.add_billed_minutes (callMinutes duration)) }

/-- `PrepaidContract.cancel_contract`: returns 0 if the balance is at most 0
and the balance itself otherwise; the method reads only `self.balance` and
assigns nothing, so the state is returned unchanged. -/
def prepaidCancel (st : PrepaidContract) : ℚ × PrepaidContract :=
  (if st.balance ≤ 0 then 0 else st.balance, st)

/-! Helper lemmas. -/

/-- The bill transformation of a sequence of term `bill_call`s. -/
def termBillCallsB : Bill → List Nat → Bill
  | b, [] => b
  | b, d :: ds => termBillCallsB (termBillCallB b d) ds

/-- With a bill installed, a sequence of term `bill_call`s succeeds and only
transforms the bill. -/
theorem termBillCalls_eq (ds : List Nat) :
    ∀ (st : TermContract) (b : Bill), st.bill = some b →
      termBillCalls st ds = some { st with bill := some (termBillCallsB b ds) } := by
  induction ds with
  | nil =>
    intro st b hb
    cases st
    simp_all [termBillCalls, termBillCallsB]
  | cons d ds ih =>
    intro st b hb
    rw [termBillCalls, termBillCall, hb]
    exact ih _ _ rfl

/-- In the strict under-pool case a term `bill_call` only grows the
free-minutes counter by the call's minutes. -/
theorem termBillCallB_under (b : Bill) (d : Nat)
    (h : b.free_min + (callMinutes d : Int) < TERM_MINS) :
    termBillCallB b d = { b with free_min := b.free_min + (callMinutes d : Int) } := by
  rw [termBillCallB]
  simp only [h, if_true]

/-- As long as the per-call minutes sum below the pool capacity, every call
is absorbed by the pool. -/
theorem termBillCallsB_under (ds : List Nat) :
    ∀ b : Bill, 0 ≤ b.free_min →
      b.free_min + (minutesSum ds : Int) < TERM_MINS →
      termBillCallsB b ds = { b with free_min := b.free_min + (minutesSum ds : Int) } := by
  induction ds with
  | nil =>
    intro b _ _
    simp [termBillCallsB, minutesSum]
  | cons d ds ih =>
    intro b h0 h
    have hsum : (minutesSum (d :: ds) : Int) = (callMinutes d : Int) + (minutesSum ds : Int) := by
      simp [minutesSum]
    have hd : b.free_min + (callMinutes d : Int) < TERM_MINS := by
      have : (0 : Int) ≤ (minutesSum ds : Int) := Int.natCast_nonneg _
      omega
    rw [termBillCallsB, termBillCallB_under b d hd]
    rw [ih _ (by positivity) (by rw [hsum] at h; simpa [add_assoc] using h)]
    rw [hsum]
    simp [add_assoc]

/-- The billed-minutes counter is untouched by `termBillCallB` in the strict
under-pool case, and hence by an under-pool sequence. -/
theorem termBillCallsB_billed (ds : List Nat) :
    ∀ b : Bill, 0 ≤ b.free_min →
      b.free_min + (minutesSum ds : Int) < TERM_MINS →
      (termBillCallsB b ds).billed_min = b.billed_min := by
  intro b h0 h
  rw [termBillCallsB_under ds b h0 h]

/-- The bill transformation of a sequence of inherited (month-to-month)
`bill_call`s. -/
def mtmBillCallsB : Bill → List Nat → Bill
  | b, [] => b
  | b, d :: ds => mtmBillCallsB (b.add_billed_minutes (callMinutes d)) ds

/-- With a bill installed, a sequence of month-to-month `bill_call`s succeeds
and only transforms the bill. -/
theorem mtmBillCalls_eq (ds : List Nat) :
    ∀ (st : MTMContract) (b : Bill), st.bill = some b →
      mtmBillCalls st ds = some { st with bill := some (mtmBillCallsB b ds) } := by
  induction ds with
  | nil =>
    intro st b hb
    cases st
    simp_all [mtmBillCalls, mtmBillCallsB]
  | cons d ds ih =>
    intro st b hb
    rw [mtmBillCalls, mtmBillCall, hb]
    exact ih _ _ rfl

/-- A sequence of inherited `bill_call`s adds exactly the per-call rounded
minutes to the billed-minutes counter and changes nothing else. -/
theorem mtmBillCallsB_eq (ds : List Nat) :
    ∀ b : Bill,
      mtmBillCallsB b ds = { b with billed_min := b.billed_min + (minutesSum ds : Int) } := by
  induction ds with
  | nil =>
    intro b
    simp [mtmBillCallsB, minutesSum]
  | cons d ds ih =>
    intro b
    rw [mtmBillCallsB, ih]
    simp [Bill.add_billed_minutes, minutesSum, add_assoc]


/-! Concrete states used by counterexamples and witnesses. -/

/-- A term contract in mid-term with a fresh (all-zero) bill installed. -/
def exTerm : TermContract :=
  { start := some ⟨2025, 1, 1⟩, bill := some Bill.empty,
    current := ⟨2025, 1, 1⟩, endDate := ⟨2026, 1, 1⟩ }

/-- The bill of the final state of a sequence of term `bill_call`s. -/
def termBillOf (st : Option TermContract) : Option Bill :=
  st.bind fun s => s.bill

/-! Claim theorems. -/

/-- Claim C1 (counterexample): on a term contract whose pool is empty, a
single 150-minute call (9000 seconds) leaves the bill's free-minutes-used
counter at 200, not at 100 as the claim states — the branch for a partially
filled pool first adds the 100 consumed pool minutes to `free_min` and then
`add_free_minutes` adds the same 100 again. -/
theorem C1_counterexample :
    (termBillOf (termBillCall exTerm 9000)).map Bill.free_min = some 200 ∧
    (termBillOf (termBillCall exTerm 9000)).map Bill.free_min ≠ some 100 := by
  exact ⟨rfl, by decide⟩

/-- Claim C1 (amended): for a term contract in a month with an empty pool,
a single `bill_call` of a 150-minute call leaves the bill's billed-minutes
counter at 50, recorded once, but leaves the free-minutes-used counter at
200: the pool-consumption increment records the full pool of 100 and the
flush via `add_free_minutes` records the same 100 a second time. -/
theorem C1_term_150min_call (st : TermContract) (b : Bill) :
    termBillCall { st with bill := some { b with free_min := 0, billed_min := 0 } } 9000 =
      some { st with bill := some { b with free_min := 200, billed_min := 50 } } := by
  cases st
  cases b
  simp only [termBillCall, termBillCallB, Bill.add_free_minutes, Bill.add_billed_minutes]
  norm_num [callMinutes, TERM_MINS]

/-- Claim C2 (counterexample): the minutes of a single 6000-second call sum
to exactly 100 — at most 100 as the claim requires — yet after billing it
the free-minutes-used counter holds 200, not the sum. -/
theorem C2_counterexample :
    minutesSum [6000] = 100 ∧
    (termBillOf (termBillCalls exTerm [6000])).map Bill.free_min = some 200 ∧
    (termBillOf (termBillCalls exTerm [6000])).map Bill.free_min ≠ some (minutesSum [6000] : Int) := by
  exact ⟨rfl, rfl, by decide⟩

/-- Claim C2 (amended): for a term contract and every sequence of
`bill_call`s within one month whose per-call rounded minutes sum to strictly
less than 100, the bill's free-minutes-used counter ends at that sum and the
billed-minutes counter at 0.  (At a sum of exactly 100 the threshold call
flushes the pool and doubles the counter, as the counterexample shows.) -/
theorem C2_term_under_pool (st : TermContract) (b : Bill) (ds : List Nat)
    (h : (minutesSum ds : Int) < TERM_MINS) :
    termBillCalls { st with bill := some { b with free_min := 0, billed_min := 0 } } ds =
      some { st with
              bill := some { b with free_min := (minutesSum ds : Int), billed_min := 0 } } := by
  rw [termBillCalls_eq ds _ { b with free_min := 0, billed_min := 0 } rfl]
  rw [termBillCallsB_under ds _ (by simp) (by simpa using h)]
  simp

/-- Witness for C2_term_under_pool: a concrete contract billed a two-call
sequence of 40 and 59 minutes (sum 99 < 100). -/
theorem C2_term_under_pool_witness :
    termBillCalls { exTerm with
        bill := some { Bill.empty with free_min := 0, billed_min := 0 } } [2400, 3540] =
      some { exTerm with
              bill := some { Bill.empty with
                              free_min := (minutesSum [2400, 3540] : Int), billed_min := 0 } } :=
  C2_term_under_pool exTerm Bill.empty [2400, 3540] (by decide)

/-- The state of a mid-January-2025 term contract after advancing to
February 2025 with a fresh bill: no deposit (not the start month), the term
rate, the monthly fee as fixed cost, current period 1 February 2025. -/
def termNewMonthFeb : TermContract :=
  { start := some ⟨2025, 1, 15⟩,
    bill := some { type := "TERM", fixed_cost := 20, min_rate := TERM_MINS_COST,
                   free_min := 0, billed_min := 0 },
    current := ⟨2025, 2, 1⟩, endDate := ⟨2026, 6, 30⟩ }

/-- Claim C3: after any successful `new_month`, the current-period marker is
the first day of that month and year, and `cancel_contract` returns 0 when
the end date is on or before that marker and the deposit minus the monthly
fee — 300 - 20 = 280 — otherwise. -/
theorem C3_term_cancel (st st2 : TermContract) (month year : Int) (b : Bill)
    (h : termNewMonth st month year b = some st2) :
    st2.current = ⟨year, month, 1⟩ ∧
    st2.endDate = st.endDate ∧
    (dateLe st2.endDate st2.current = true → (termCancel st2).1 = 0) ∧
    (dateLe st2.endDate st2.current = false →
      (termCancel st2).1 = TERM_DEPOSIT - TERM_MONTHLY_FEE) ∧
    TERM_DEPOSIT - TERM_MONTHLY_FEE = 280 := by
  obtain ⟨os, ob, cur, ed⟩ := st
  cases os with
  | none => exact absurd h (by simp [termNewMonth])
  | some s =>
    dsimp only [termNewMonth] at h
    by_cases hg : 1 ≤ month ∧ month ≤ 12 ∧ 1 ≤ year ∧ year ≤ 9999
    · rw [if_pos hg] at h
      have h2 : st2.current = ⟨year, month, 1⟩ ∧ st2.endDate = ed := by
        cases st2
        simp only [Option.some.injEq] at h
        rw [← h]
        exact ⟨rfl, rfl⟩
      refine ⟨h2.1, h2.2, ?_, ?_, by norm_num [TERM_DEPOSIT, TERM_MONTHLY_FEE]⟩
      · intro hle
        rw [termCancel, hle]
        simp
      · intro hlt
        rw [termCancel, hlt]
        simp
    · rw [if_neg hg] at h
      exact absurd h (by simp)

/-- Witness for C3_term_cancel: a term contract started mid-January 2025 and
ending mid-2026, advanced to February 2025. -/
theorem C3_term_cancel_witness :
    (termNewMonthFeb).current = ⟨2025, 2, 1⟩ ∧
    (termNewMonthFeb).endDate = (termInit ⟨2025, 1, 15⟩ ⟨2026, 6, 30⟩).endDate ∧
    (dateLe (termNewMonthFeb).endDate (termNewMonthFeb).current = true →
      (termCancel termNewMonthFeb).1 = 0) ∧
    (dateLe (termNewMonthFeb).endDate (termNewMonthFeb).current = false →
      (termCancel termNewMonthFeb).1 = TERM_DEPOSIT - TERM_MONTHLY_FEE) ∧
    TERM_DEPOSIT - TERM_MONTHLY_FEE = 280 :=
  C3_term_cancel (termInit ⟨2025, 1, 15⟩ ⟨2026, 6, 30⟩) termNewMonthFeb 2 2025 Bill.empty
    (by norm_num [termNewMonth, termInit, termNewMonthFeb, Bill.empty, Bill.set_rates,
          Bill.add_fixed_cost, TERM_MINS_COST, TERM_MONTHLY_FEE])

/-- Claim C4: `PrepaidContract.new_month` charges the carried balance as a
fixed cost on the installed bill, performs the forced 25-unit recharge (both
on the balance and as a further fixed cost) exactly when the balance exceeds
-10, and sets the prepaid rate; constructing with top-up 100 yields balance
-100, and the first `new_month` on a fresh bill performs no recharge and
charges -100 as the bill's fixed cost. -/
theorem C4_prepaid_new_month (st : PrepaidContract) (month year : Int) (b : Bill) (d : Date) :
    (prepaidNewMonth st month year b =
      { st with
          balance := st.balance - (if st.balance > -10 then 25 else 0),
          bill := some { b with
                          type := "PREPAID",
                          fixed_cost :=
                            b.fixed_cost + st.balance + (if st.balance > -10 then 25 else 0),
                          min_rate := PREPAID_MINS_COST } }) ∧
    (prepaidInit d 100).balance = -100 ∧
    (prepaidNewMonth (prepaidInit d 100) month year Bill.empty).balance = -100 ∧
    (prepaidNewMonth (prepaidInit d 100) month year Bill.empty).bill =
      some { Bill.empty with
              type := "PREPAID", fixed_cost := -100, min_rate := PREPAID_MINS_COST } := by
  have hmain : ∀ (st2 : PrepaidContract) (b2 : Bill),
      prepaidNewMonth st2 month year b2 =
        { st2 with
            balance := st2.balance - (if st2.balance > -10 then 25 else 0),
            bill := some { b2 with
                            type := "PREPAID",
                            fixed_cost :=
                              b2.fixed_cost + st2.balance + (if st2.balance > -10 then 25 else 0),
                            min_rate := PREPAID_MINS_COST } } := by
    intro st2 b2
    obtain ⟨os, ob, bal⟩ := st2
    obtain ⟨ty, fc, mr, fm, bm⟩ := b2
    by_cases hb : bal > -10
    · simp [prepaidNewMonth, Bill.add_fixed_cost, Bill.set_rates, hb]
    · simp [prepaidNewMonth, Bill.add_fixed_cost, Bill.set_rates, hb]
  have hbal : (prepaidInit d 100).balance = -100 := by
    norm_num [prepaidInit]
  refine ⟨hmain st b, hbal, ?_, ?_⟩
  · rw [hmain (prepaidInit d 100) Bill.empty]
    norm_num [hbal]
  · rw [hmain (prepaidInit d 100) Bill.empty]
    norm_num [hbal, Bill.empty]

/-- Claim C5: for every prepaid state, `cancel_contract` returns 0 when the
balance is at most 0 and the balance itself when it is positive — that is,
the positive part of the balance. -/
theorem C5_prepaid_cancel (st : PrepaidContract) :
    prepaidCancel st = (max st.balance 0, st) := by
  rw [prepaidCancel]
  rcases le_or_lt st.balance 0 with h | h
  · rw [if_pos h, max_eq_right h]
  · rw [if_neg (not_le.mpr h), max_eq_left h.le]

/-- Claim C6 (counterexample): `TermContract.cancel_contract` does not clear
the start date — on a concrete active term contract the start date after
cancellation is still the original date, not cleared. -/
theorem C6_counterexample :
    ((termCancel exTerm).2).start = some ⟨2025, 1, 1⟩ ∧
    ((termCancel exTerm).2).start ≠ none := by
  exact ⟨rfl, by decide⟩

/-- Claim C6 (amended): only the inherited base `cancel_contract` (used by
the month-to-month variant) clears the start date; the overriding
`cancel_contract` of the term and prepaid variants assigns nothing, leaving
the start date (and the rest of the state) unchanged. -/
theorem C6_cancel_start (st : MTMContract) (b : Bill) (stT : TermContract)
    (stP : PrepaidContract) :
    mtmCancel { st with bill := some b } =
      some (b.get_cost, { st with bill := some b, start := none }) ∧
    ((termCancel stT).2).start = stT.start ∧
    ((prepaidCancel stP).2).start = stP.start := by
  exact ⟨rfl, rfl, rfl⟩

/-- Claim C9 (counterexample): on a freshly constructed prepaid contract —
no bill installed yet — `cancel_contract` does not fail: it never
dereferences the bill and returns the normal amount 0. -/
theorem C9_counterexample :
    (prepaidInit ⟨2025, 1, 1⟩ 100).bill = none ∧
    prepaidCancel (prepaidInit ⟨2025, 1, 1⟩ 100) =
      (0, prepaidInit ⟨2025, 1, 1⟩ 100) := by
  refine ⟨rfl, ?_⟩
  rw [prepaidCancel, if_pos]
  norm_num [prepaidInit]

/-- Claim C9 (amended): with no bill installed, `bill_call` fails fast on
every variant and the inherited `cancel_contract` of the month-to-month
variant fails fast, but the overriding `cancel_contract` of the term and
prepaid variants never dereferences the bill and returns its normal result
value. -/
theorem C9_no_bill (duration : Nat) :
    (∀ st : MTMContract, st.bill = none →
      mtmBillCall st duration = none ∧ mtmCancel st = none) ∧
    (∀ st : TermContract, st.bill = none →
      termBillCall st duration = none ∧
      termCancel st =
        (if dateLe st.endDate st.current then 0 else TERM_DEPOSIT - TERM_MONTHLY_FEE, st)) ∧
    (∀ st : PrepaidContract, st.bill = none →
      prepaidBillCall st duration = none ∧
      prepaidCancel st = (if st.balance ≤ 0 then 0 else st.balance, st)) := by
  refine ⟨fun st h => ⟨?_, ?_⟩, fun st h => ⟨?_, rfl⟩, fun st h => ⟨?_, rfl⟩⟩
  · rw [mtmBillCall, h]
  · rw [mtmCancel, h]
  · rw [termBillCall, h]
  · rw [prepaidBillCall, h]

/-- Witness for C9_no_bill on freshly constructed contracts of the three
variants, for a one-minute call. -/
theorem C9_no_bill_witness :
    (mtmBillCall (mtmInit ⟨2025, 1, 1⟩) 60 = none ∧
      mtmCancel (mtmInit ⟨2025, 1, 1⟩) = none) ∧
    (termBillCall (termInit ⟨2025, 1, 1⟩ ⟨2027, 1, 1⟩) 60 = none ∧
      termCancel (termInit ⟨2025, 1, 1⟩ ⟨2027, 1, 1⟩) =
        (if dateLe (termInit ⟨2025, 1, 1⟩ ⟨2027, 1, 1⟩).endDate
              (termInit ⟨2025, 1, 1⟩ ⟨2027, 1, 1⟩).current
          then 0 else TERM_DEPOSIT - TERM_MONTHLY_FEE,
         termInit ⟨2025, 1, 1⟩ ⟨2027, 1, 1⟩)) ∧
    (prepaidBillCall (prepaidInit ⟨2025, 1, 1⟩ 100) 60 = none ∧
      prepaidCancel (prepaidInit ⟨2025, 1, 1⟩ 100) =
        (if (prepaidInit ⟨2025, 1, 1⟩ 100).balance ≤ 0 then 0
          else (prepaidInit ⟨2025, 1, 1⟩ 100).balance,
         prepaidInit ⟨2025, 1, 1⟩ 100)) :=
  ⟨(C9_no_bill 60).1 (mtmInit ⟨2025, 1, 1⟩) rfl,
   (C9_no_bill 60).2.1 (termInit ⟨2025, 1, 1⟩ ⟨2027, 1, 1⟩) rfl,
   (C9_no_bill 60).2.2 (prepaidInit ⟨2025, 1, 1⟩ 100) rfl⟩

/-- Claim C10: for the term and prepaid variants, `cancel_contract` leaves
the active bill (indeed the whole state) unchanged, and the returned amount
is independent of the bill: for the term variant it is a function of the end
date and current-period marker alone, for the prepaid variant of the balance
alone. -/
theorem C10_cancel_frame :
    (∀ st : TermContract, ((termCancel st).2) = st) ∧
    (∀ st st2 : TermContract, st.endDate = st2.endDate → st.current = st2.current →
      (termCancel st).1 = (termCancel st2).1) ∧
    (∀ st : PrepaidContract, ((prepaidCancel st).2) = st) ∧
    (∀ st st2 : PrepaidContract, st.balance = st2.balance →
      (prepaidCancel st).1 = (prepaidCancel st2).1) := by
  refine ⟨fun st => rfl, fun st st2 he hc => ?_, fun st => rfl, fun st st2 hb => ?_⟩
  · rw [termCancel, termCancel, he, hc]
  · rw [prepaidCancel, prepaidCancel, hb]

/-- Witness for C10_cancel_frame: two term states and two prepaid states
agreeing on the cancellation-relevant fields but holding different bills. -/
theorem C10_cancel_frame_witness :
    ((termCancel exTerm).2) = exTerm ∧
    (termCancel exTerm).1 = (termCancel { exTerm with bill := none }).1 ∧
    ((prepaidCancel (prepaidInit ⟨2025, 1, 1⟩ 100)).2) = prepaidInit ⟨2025, 1, 1⟩ 100 ∧
    (prepaidCancel (prepaidInit ⟨2025, 1, 1⟩ 100)).1 =
      (prepaidCancel { prepaidInit ⟨2025, 1, 1⟩ 100 with bill := some Bill.empty }).1 :=
  ⟨C10_cancel_frame.1 exTerm,
   C10_cancel_frame.2.1 exTerm { exTerm with bill := none } rfl rfl,
   C10_cancel_frame.2.2.1 (prepaidInit ⟨2025, 1, 1⟩ 100),
   C10_cancel_frame.2.2.2 (prepaidInit ⟨2025, 1, 1⟩ 100)
     { prepaidInit ⟨2025, 1, 1⟩ 100 with bill := some Bill.empty } rfl⟩

/-- The bill of the final state of a sequence of month-to-month
`bill_call`s. -/
def mtmBillOf (st : Option MTMContract) : Option Bill :=
  st.bind fun s => s.bill

/-- Claim C7: for a month-to-month contract after one `new_month` with a
fresh bill, and every list of call durations billed by separate `bill_call`
invocations, the bill's total cost is the flat monthly fee 50 plus the sum
over the individual calls of their rounded-up minutes times the rate 0.05 —
so the total depends only on the per-call rounded minutes, not on how the
calls are ordered — and, minutes being rounded per call, it differs from
rounding the aggregate seconds, as two 30-second calls show. -/
theorem C7_mtm_month_cost (st : MTMContract) (month year : Int) (ds : List Nat) :
    (mtmBillOf (mtmBillCalls (mtmNewMonth st month year Bill.empty) ds)).map Bill.get_cost =
      some (MTM_MONTHLY_FEE + (minutesSum ds : ℚ) * MTM_MINS_COST) ∧
    (mtmBillOf (mtmBillCalls (mtmNewMonth st month year Bill.empty) [30, 30])).map Bill.get_cost ≠
      some (MTM_MONTHLY_FEE + (callMinutes (30 + 30) : ℚ) * MTM_MINS_COST) := by
  have hmain : ∀ ds2 : List Nat,
      (mtmBillOf (mtmBillCalls (mtmNewMonth st month year Bill.empty) ds2)).map Bill.get_cost =
        some (MTM_MONTHLY_FEE + (minutesSum ds2 : ℚ) * MTM_MINS_COST) := by
    intro ds2
    rw [mtmBillCalls_eq ds2 (mtmNewMonth st month year Bill.empty)
          ((Bill.empty.set_rates "MTM" MTM_MINS_COST).add_fixed_cost MTM_MONTHLY_FEE) rfl]
    rw [mtmBillCallsB_eq]
    simp only [mtmBillOf, Option.bind_some, Option.map_some]
    simp [Bill.get_cost, Bill.add_fixed_cost, Bill.set_rates, Bill.empty]
  refine ⟨hmain ds, ?_⟩
  rw [hmain [30, 30]]
  have h1 : minutesSum [30, 30] = 2 := rfl
  have h2 : callMinutes (30 + 30) = 1 := rfl
  rw [h1, h2]
  norm_num [MTM_MONTHLY_FEE, MTM_MINS_COST]
